import Mathlib

/-
Verification of the 1-D finite-volume Euler solver from
`write_a_hydrocode.ipynb` against its specification.

Modelling conventions:
  * Python/NumPy double-precision numbers are modelled as exact rationals `ℚ`
    (so decimal literals such as 1.4, 0.8, 0.5 are the exact rationals the
    source text writes).
  * NumPy arrays of ghosted grid length `nx + 2·ng` are modelled as total
    functions `ℤ → ℚ` (or `ℤ → Vec3` for `(N, 3)` arrays); a freshly
    allocated `scratch_array` is the all-zero function, and slice
    assignments become pointwise conditionals on the assigned index range.
    All index arithmetic of the claims stays inside `[0, nx + 2·ng)`, where
    this model agrees with NumPy indexing.
  * The external Riemann solver (`import riemann`) is a parameter
    `riemann : Vec3 → Vec3 → ℚ → Vec3` of every definition that calls it,
    exactly as the source treats it as an opaque imported function.
  * `np.sqrt` is likewise an external library function and is passed as a
    parameter `sqrt : ℚ → ℚ` to `timestep`.
  * `FVGrid.__init__` can only fail by raising `ZeroDivisionError` in
    `dx = (xmax - xmin)/nx` (when `nx = 0`); the constructor is therefore
    embedded as an `Option`-returning function that is `none` exactly there.
-/

/-- Conserved-variable component indices (source: `URHO = 0` etc.). -/
def URHO : Fin 3 := 0

def UMX : Fin 3 := 1

def UENER : Fin 3 := 2

/-- Primitive-variable component indices (source: `QRHO = 0` etc.). -/
def QRHO : Fin 3 := 0

def QU : Fin 3 := 1

def QP : Fin 3 := 2

def NVAR : ℕ := 3

/-- Source: `gamma = 1.4`. -/
def gamma : ℚ := 1.4

/-- Source: `C = 0.8` (the CFL number). -/
def C : ℚ := 0.8

/-- A per-cell 3-vector of components, indexed like the NumPy second axis. -/
abbrev Vec3 := Fin 3 → ℚ

/-- The grid record built by `FVGrid.__init__` (the derived cell-center
coordinate array `self.x` is the separate function `FVGrid.x` below). -/
structure FVGrid where
  xmin : ℚ
  xmax : ℚ
  ng : ℤ
  nx : ℤ
  ilo : ℤ
  ihi : ℤ
  dx : ℚ
deriving Repr

/-- The field values `FVGrid.__init__` stores: `ilo = ng`, `ihi = ng+nx-1`,
`dx = (xmax-xmin)/nx`. -/
def mkGrid (nx ng : ℤ) (xmin xmax : ℚ) : FVGrid :=
  { xmin := xmin
    xmax := xmax
    ng := ng
    nx := nx
    ilo := ng
    ihi := ng + nx - 1
    dx := (xmax - xmin) / (nx : ℚ) }

/-- `FVGrid.__init__` as the source runs it: no validation is present; the
only way out without a grid is the `ZeroDivisionError` raised by
`(xmax - xmin)/(nx)` when `nx = 0` (modelled as `none`). -/
def FVGrid.init (nx ng : ℤ) (xmin xmax : ℚ) : Option FVGrid :=
  if nx = 0 then none else some (mkGrid nx ng xmin xmax)

/-- Total ghosted array length `nx + 2*ng`. -/
def FVGrid.len (g : FVGrid) : ℤ := g.nx + 2 * g.ng

/-- Source: `self.x = xmin + (np.arange(nx+2*ng)-ng+0.5)*self.dx`. -/
def FVGrid.x (g : FVGrid) (i : ℤ) : ℚ :=
  g.xmin + ((i : ℚ) - (g.ng : ℚ) + 0.5) * g.dx

/-- Source: `scratch_array` returns a zero array of ghosted length. -/
def FVGrid.scratch (g : FVGrid) : ℤ → ℚ := fun _ => 0

/-- Source: `scratch_array(nc=NVAR)`, the zero `(N, 3)` array. -/
def FVGrid.scratchVec (g : FVGrid) : ℤ → Vec3 := fun _ _ => 0

/-- `fill_BCs` on a scalar-per-cell field (the `nc == 1` branch):
`atmp[0:ilo] = atmp[ilo]` then `atmp[ihi+1:] = atmp[ihi]`, performed in that
order on indices `[0, len)`. -/
def FVGrid.fill_BCs_scalar (g : FVGrid) (a : ℤ → ℚ) : ℤ → ℚ :=
  let a1 := fun i => if 0 ≤ i ∧ i < g.ilo then a g.ilo else a i
  fun i => if g.ihi + 1 ≤ i ∧ i < g.len then a1 g.ihi else a1 i

/-- `fill_BCs` on a vector-per-cell field (the `else` branch fills each
component `n` the same way). -/
def FVGrid.fill_BCs (g : FVGrid) (a : ℤ → Vec3) : ℤ → Vec3 :=
  let a1 := fun i (n : Fin 3) => if 0 ≤ i ∧ i < g.ilo then a g.ilo n else a i n
  fun i n => if g.ihi + 1 ≤ i ∧ i < g.len then a1 g.ihi n else a1 i n

/-- The pointwise content of `cons_to_prim`:
`q[QRHO] = U[URHO]`, `q[QU] = U[UMX]/U[URHO]`,
`q[QP] = (U[UENER] - 0.5*q[QRHO]*q[QU]**2)*(gamma - 1.0)`. -/
def prim_point (u : Vec3) : Vec3 :=
  ![u URHO, u UMX / u URHO,
    (u UENER - 0.5 * u URHO * (u UMX / u URHO) ^ 2) * (gamma - 1)]

/-- `cons_to_prim(grid, U)`: the three whole-array NumPy assignments act
cellwise, so the result at cell `i` is `prim_point (U i)`. -/
def cons_to_prim (grid : FVGrid) (U : ℤ → Vec3) : ℤ → Vec3 :=
  fun i => prim_point (U i)

/-- The slope array `dq` built inside `states`:
`dq[ilo-1:ihi+2] = 0.5*(q[ilo:ihi+3] - q[ilo-2:ihi+1])`, i.e.
`dq[i] = 0.5*(q[i+1] - q[i-1])` on `[ilo-1, ihi+1]`, zero (scratch) outside. -/
def states_dq (grid : FVGrid) (U : ℤ → Vec3) : ℤ → Vec3 :=
  let q := cons_to_prim grid U
  fun i n =>
    if grid.ilo - 1 ≤ i ∧ i ≤ grid.ihi + 1 then
      0.5 * (q (i + 1) n - q (i - 1) n)
    else 0

/-- The left interface states built inside `states`:
`q_l[ilo:ihi+2] = q[ilo-1:ihi+1] + 0.5*dq[ilo-1:ihi+1]`, i.e.
`q_l[i] = q[i-1] + 0.5*dq[i-1]` on `[ilo, ihi+1]`, zero outside. -/
def states_q_l (grid : FVGrid) (U : ℤ → Vec3) : ℤ → Vec3 :=
  let q := cons_to_prim grid U
  fun i n =>
    if grid.ilo ≤ i ∧ i ≤ grid.ihi + 1 then
      q (i - 1) n + 0.5 * states_dq grid U (i - 1) n
    else 0

/-- The right interface states built inside `states`:
`q_r[ilo:ihi+2] = q[ilo:ihi+2] - 0.5*dq[ilo:ihi+2]`, i.e.
`q_r[i] = q[i] - 0.5*dq[i]` on `[ilo, ihi+1]`, zero outside. -/
def states_q_r (grid : FVGrid) (U : ℤ → Vec3) : ℤ → Vec3 :=
  let q := cons_to_prim grid U
  fun i n =>
    if grid.ilo ≤ i ∧ i ≤ grid.ihi + 1 then
      q i n - 0.5 * states_dq grid U i n
    else 0

/-- `states(grid, U)` returns the pair `(q_l, q_r)`. -/
def states (grid : FVGrid) (U : ℤ → Vec3) : (ℤ → Vec3) × (ℤ → Vec3) :=
  (states_q_l grid U, states_q_r grid U)

/-- The interface flux array built inside `make_flux_divergence`:
`flux[i,:] = riemann.riemann(q_l[i,:], q_r[i,:], gamma)` for
`i in range(ilo, ihi+2)`, zero (scratch) outside that range. -/
def interface_flux (riemann : Vec3 → Vec3 → ℚ → Vec3) (grid : FVGrid)
    (U : ℤ → Vec3) : ℤ → Vec3 :=
  fun i =>
    if grid.ilo ≤ i ∧ i ≤ grid.ihi + 1 then
      riemann ((states grid U).1 i) ((states grid U).2 i) gamma
    else fun _ => 0

/-- `make_flux_divergence(grid, U)`:
`A[ilo:ihi+1] = (flux[ilo:ihi+1] - flux[ilo+1:ihi+2])/grid.dx`, i.e.
`A[i] = (flux[i] - flux[i+1])/dx` on the interior `[ilo, ihi]`, zero
(scratch) outside. -/
def make_flux_divergence (riemann : Vec3 → Vec3 → ℚ → Vec3) (grid : FVGrid)
    (U : ℤ → Vec3) : ℤ → Vec3 :=
  fun i n =>
    if grid.ilo ≤ i ∧ i ≤ grid.ihi then
      (interface_flux riemann grid U i n -
        interface_flux riemann grid U (i + 1) n) / grid.dx
    else 0

/-- Maximum of `f a, f (a+1), ..., f (a+n)` (helper for NumPy `.max()`). -/
def sliceMaxAux (f : ℤ → ℚ) (a : ℤ) : ℕ → ℚ
  | 0 => f a
  | n + 1 => max (sliceMaxAux f a n) (f (a + (n + 1)))

/-- Maximum of `f` over the index range `[a, b]`, the NumPy `.max()` of a
contiguous slice (meaningful when `a ≤ b`; NumPy raises on an empty slice). -/
def sliceMax (f : ℤ → ℚ) (a b : ℤ) : ℚ := sliceMaxAux f a (b - a).toNat

/-- `timestep(grid, U)`: sound speed `c[ilo:ihi+1] = np.sqrt(gamma*p/rho)`
on a scratch array, then `dt = C*dx / (np.abs(u) + c).max()` over the
interior slice.  `sqrt` is the external `np.sqrt`. -/
def timestep (sqrt : ℚ → ℚ) (grid : FVGrid) (U : ℤ → Vec3) : ℚ :=
  let q := cons_to_prim grid U
  let c : ℤ → ℚ := fun i =>
    if grid.ilo ≤ i ∧ i ≤ grid.ihi then
      sqrt (gamma * q i QP / q i QRHO)
    else 0
  C * grid.dx / sliceMax (fun i => |q i QU| + c i) grid.ilo grid.ihi

/-- Stage 0 of the loop body of `mol_solve`:
`grid.fill_BCs(U); k1 = make_flux_divergence(grid, U)`. -/
def mol_k1 (riemann : Vec3 → Vec3 → ℚ → Vec3) (grid : FVGrid)
    (U : ℤ → Vec3) : ℤ → Vec3 :=
  make_flux_divergence riemann grid (grid.fill_BCs U)

/-- `U_tmp[:, n] = U[:, n] + 0.5 * dt * k1[:, n]` over the full array,
where `U` has just been filled in place by `fill_BCs`. -/
def mol_U_mid (riemann : Vec3 → Vec3 → ℚ → Vec3) (grid : FVGrid)
    (U : ℤ → Vec3) (dt : ℚ) : ℤ → Vec3 :=
  fun i n => grid.fill_BCs U i n + 0.5 * dt * mol_k1 riemann grid U i n

/-- Stage 1: `grid.fill_BCs(U_tmp); k2 = make_flux_divergence(grid, U_tmp)`. -/
def mol_k2 (riemann : Vec3 → Vec3 → ℚ → Vec3) (grid : FVGrid)
    (U : ℤ → Vec3) (dt : ℚ) : ℤ → Vec3 :=
  make_flux_divergence riemann grid (grid.fill_BCs (mol_U_mid riemann grid U dt))

/-- The interface flux array of the stage-1 (`k2`) flux-divergence
evaluation — the fluxes the final update is built from. -/
def mol_k2_flux (riemann : Vec3 → Vec3 → ℚ → Vec3) (grid : FVGrid)
    (U : ℤ → Vec3) (dt : ℚ) : ℤ → Vec3 :=
  interface_flux riemann grid (grid.fill_BCs (mol_U_mid riemann grid U dt))

/-- One full iteration of the `while t < tmax` body of `mol_solve` acting on
the state array (the source's final `U[:, n] += dt * k2[:, n]` adds over the
whole array, on top of the in-place `fill_BCs(U)` from stage 0). -/
def mol_step (riemann : Vec3 → Vec3 → ℚ → Vec3) (grid : FVGrid)
    (U : ℤ → Vec3) (dt : ℚ) : ℤ → Vec3 :=
  fun i n => grid.fill_BCs U i n + dt * mol_k2 riemann grid U dt i n

/-- Modelled from the spec's words (§4.7), for comparison with `mol_step`:
fill ghost cells of U; `k1 = flux_divergence(Grid, U)`;
`U_mid = U + 0.5·dt·k1` over the full domain; fill ghost cells of `U_mid`;
`k2 = flux_divergence(Grid, U_mid)`; update `U ← U + dt·k2` over interior
cells only, `k1` discarded. -/
def mol_step_spec (riemann : Vec3 → Vec3 → ℚ → Vec3) (grid : FVGrid)
    (U : ℤ → Vec3) (dt : ℚ) : ℤ → Vec3 :=
  let Uf := grid.fill_BCs U
  let k1 := make_flux_divergence riemann grid Uf
  let U_mid := fun i n => Uf i n + 0.5 * dt * k1 i n
  let U_midf := grid.fill_BCs U_mid
  let k2 := make_flux_divergence riemann grid U_midf
  fun i n => if grid.ilo ≤ i ∧ i ≤ grid.ihi then Uf i n + dt * k2 i n else Uf i n

/-- C10: For every scalar-per-cell or vector-per-cell field, `fill_BCs`
modifies only ghost entries: every interior entry at indices `[ilo, ihi]`
holds exactly its prior value after the call. -/
theorem fill_BCs_interior_frame (g : FVGrid) (a : ℤ → ℚ) (A : ℤ → Vec3)
    (i : ℤ) (h1 : g.ilo ≤ i) (h2 : i ≤ g.ihi) :
    g.fill_BCs_scalar a i = a i ∧ ∀ n : Fin 3, g.fill_BCs A i n = A i n := by
  constructor
  · simp only [FVGrid.fill_BCs_scalar]
    rw [if_neg (by omega), if_neg (by omega)]
  · intro n
    simp only [FVGrid.fill_BCs]
    rw [if_neg (by omega), if_neg (by omega)]

theorem fill_BCs_interior_frame_witness :
    (mkGrid 4 2 0 1).ilo ≤ 3 ∧ (3 : ℤ) ≤ (mkGrid 4 2 0 1).ihi ∧
      ((mkGrid 4 2 0 1).fill_BCs_scalar (fun i => (i : ℚ)) 3 = (3 : ℚ) ∧
        ∀ n : Fin 3, (mkGrid 4 2 0 1).fill_BCs (fun i _ => (i : ℚ)) 3 n = (3 : ℚ)) :=
  ⟨by decide, by decide,
    fill_BCs_interior_frame (mkGrid 4 2 0 1) (fun i => (i : ℚ))
      (fun i _ => (i : ℚ)) 3 (by decide) (by decide)⟩

/-- C3 counterexample: the constructor does not reject invalid
configurations — it returns a grid for `ng = 1 < 2`, for `nx = -4 ≤ 0`, and
for `xmin = 1 ≥ xmax = 0`. -/
theorem fvgrid_init_accepts_invalid_config :
    (FVGrid.init 4 1 0 1).isSome = true ∧
      (FVGrid.init (-4) 2 0 1).isSome = true ∧
      (FVGrid.init 4 2 1 0).isSome = true := by
  refine ⟨rfl, rfl, rfl⟩

/-- C3 amended: `FVGrid.__init__` performs no validation at all; it returns
a grid for every `nx ≠ 0` (any `ng`, any `xmin`, `xmax`), and the only
failing configuration is `nx = 0`, which raises `ZeroDivisionError` while
computing `dx = (xmax - xmin)/nx`. -/
theorem fvgrid_init_isSome_iff (nx ng : ℤ) (xmin xmax : ℚ) :
    (FVGrid.init nx ng xmin xmax).isSome = true ↔ nx ≠ 0 := by
  unfold FVGrid.init
  by_cases h : nx = 0
  · simp [h]
  · simp [h]

theorem fvgrid_init_isSome_iff_witness :
    (FVGrid.init 4 1 0 1).isSome = true ↔ (4 : ℤ) ≠ 0 :=
  fvgrid_init_isSome_iff 4 1 0 1

/-- C4 counterexample: on a non-physical state (negative density in every
cell), `cons_to_prim` silently returns the non-physical primitive values
`ρ = -1`, `u = -2`, `p = 6/5` — an ordinary value, with no error signal of
any kind. -/
theorem cons_to_prim_silent_on_negative_density :
    cons_to_prim (mkGrid 4 2 0 1) (fun _ => ![-1, 2, 1]) 2 = ![-1, -2, 6/5] := by
  funext n
  fin_cases n <;>
    norm_num [cons_to_prim, prim_point, URHO, UMX, UENER, gamma]

/-- C4 amended: the core has no "non-physical state" signal. `cons_to_prim`
is a total function that copies density through unchecked and divides the
momentum by the density unguarded (for zero density the source emits NaN/inf
with only a runtime warning and continues; in this exact-rational model the
division is the total `ℚ` division), and `make_flux_divergence` likewise
returns a plain value for every input state with no physicality check. -/
theorem cons_to_prim_unguarded (grid : FVGrid) (U : ℤ → Vec3) (i : ℤ) :
    cons_to_prim grid U i QRHO = U i URHO ∧
      cons_to_prim grid U i QU = U i UMX / U i URHO := by
  constructor <;> rfl

lemma fill_BCs_interior_eq (g : FVGrid) (a : ℤ → Vec3) (i : ℤ)
    (h1 : g.ilo ≤ i) (h2 : i ≤ g.ihi) (n : Fin 3) :
    g.fill_BCs a i n = a i n := by
  simp only [FVGrid.fill_BCs]
  rw [if_neg (by omega), if_neg (by omega)]

lemma make_flux_divergence_interior (riemann : Vec3 → Vec3 → ℚ → Vec3)
    (grid : FVGrid) (U : ℤ → Vec3) (i : ℤ)
    (h1 : grid.ilo ≤ i) (h2 : i ≤ grid.ihi) (n : Fin 3) :
    make_flux_divergence riemann grid U i n =
      (interface_flux riemann grid U i n -
        interface_flux riemann grid U (i + 1) n) / grid.dx := by
  simp only [make_flux_divergence]
  rw [if_pos ⟨h1, h2⟩]

lemma make_flux_divergence_outside (riemann : Vec3 → Vec3 → ℚ → Vec3)
    (grid : FVGrid) (U : ℤ → Vec3) (i : ℤ)
    (h : ¬(grid.ilo ≤ i ∧ i ≤ grid.ihi)) (n : Fin 3) :
    make_flux_divergence riemann grid U i n = 0 := by
  simp only [make_flux_divergence]
  rw [if_neg h]

/-- C1: one iteration of the `mol_solve` loop body is exactly the spec's
two-stage sequence: fill ghosts of U, `k1 = flux_divergence(Grid, U)`,
`U_mid = U + 0.5·dt·k1` over the full domain, fill ghosts of `U_mid`,
`k2 = flux_divergence(Grid, U_mid)`, then `U ← U + dt·k2` over interior
cells only, with `k1` discarded from the final update. -/
theorem mol_step_matches_spec (riemann : Vec3 → Vec3 → ℚ → Vec3)
    (grid : FVGrid) (U : ℤ → Vec3) (dt : ℚ) (i : ℤ) (n : Fin 3) :
    mol_step riemann grid U dt i n = mol_step_spec riemann grid U dt i n := by
  by_cases h : grid.ilo ≤ i ∧ i ≤ grid.ihi
  · simp only [mol_step, mol_step_spec]
    rw [if_pos h]
    rfl
  · simp only [mol_step, mol_step_spec]
    rw [if_neg h]
    have hz : mol_k2 riemann grid U dt i n = 0 :=
      make_flux_divergence_outside riemann grid
        (grid.fill_BCs (mol_U_mid riemann grid U dt)) i h n
    rw [hz]
    ring

/-- C5: for a grid with two ghost cells per side, the reconstruction builds
the unlimited centered slope `slope[j] = 0.5·(Q[j+1] − Q[j-1])` for every
`j ∈ [ilo-1, ihi+1]`, and at every interface `i ∈ [ilo, ihi+1]` returns
`Q_left[i] = Q[i-1] + 0.5·slope[i-1]` and `Q_right[i] = Q[i] − 0.5·slope[i]`,
where `Q` is the primitive conversion of `U`. -/
theorem states_reconstruction_formulas (grid : FVGrid) (U : ℤ → Vec3)
    (hng : 2 ≤ grid.ng) (j i : ℤ)
    (hj1 : grid.ilo - 1 ≤ j) (hj2 : j ≤ grid.ihi + 1)
    (hi1 : grid.ilo ≤ i) (hi2 : i ≤ grid.ihi + 1) (n : Fin 3) :
    states_dq grid U j n =
        0.5 * (cons_to_prim grid U (j + 1) n - cons_to_prim grid U (j - 1) n) ∧
      states_q_l grid U i n =
        cons_to_prim grid U (i - 1) n +
          0.5 * (0.5 * (cons_to_prim grid U i n - cons_to_prim grid U (i - 2) n)) ∧
      states_q_r grid U i n =
        cons_to_prim grid U i n -
          0.5 * (0.5 * (cons_to_prim grid U (i + 1) n - cons_to_prim grid U (i - 1) n)) := by
  have e1 : i - 1 + 1 = i := by ring
  have e2 : i - 1 - 1 = i - 2 := by ring
  refine ⟨?_, ?_, ?_⟩
  · simp only [states_dq]
    rw [if_pos ⟨hj1, hj2⟩]
  · simp only [states_q_l, states_dq]
    rw [if_pos ⟨hi1, hi2⟩, if_pos (by constructor <;> omega :
      grid.ilo - 1 ≤ i - 1 ∧ i - 1 ≤ grid.ihi + 1), e1, e2]
  · simp only [states_q_r, states_dq]
    rw [if_pos ⟨hi1, hi2⟩, if_pos (by constructor <;> omega :
      grid.ilo - 1 ≤ i ∧ i ≤ grid.ihi + 1)]

theorem states_reconstruction_formulas_witness :
    2 ≤ (mkGrid 4 2 0 1).ng ∧
      (states_dq (mkGrid 4 2 0 1) (fun k _ => (k : ℚ)) 2 0 =
          0.5 * (cons_to_prim (mkGrid 4 2 0 1) (fun k _ => (k : ℚ)) (2 + 1) 0 -
            cons_to_prim (mkGrid 4 2 0 1) (fun k _ => (k : ℚ)) (2 - 1) 0) ∧
        states_q_l (mkGrid 4 2 0 1) (fun k _ => (k : ℚ)) 3 0 =
          cons_to_prim (mkGrid 4 2 0 1) (fun k _ => (k : ℚ)) (3 - 1) 0 +
            0.5 * (0.5 * (cons_to_prim (mkGrid 4 2 0 1) (fun k _ => (k : ℚ)) 3 0 -
              cons_to_prim (mkGrid 4 2 0 1) (fun k _ => (k : ℚ)) (3 - 2) 0)) ∧
        states_q_r (mkGrid 4 2 0 1) (fun k _ => (k : ℚ)) 3 0 =
          cons_to_prim (mkGrid 4 2 0 1) (fun k _ => (k : ℚ)) 3 0 -
            0.5 * (0.5 * (cons_to_prim (mkGrid 4 2 0 1) (fun k _ => (k : ℚ)) (3 + 1) 0 -
              cons_to_prim (mkGrid 4 2 0 1) (fun k _ => (k : ℚ)) (3 - 1) 0))) :=
  ⟨by decide,
    states_reconstruction_formulas (mkGrid 4 2 0 1) (fun k _ => (k : ℚ))
      (by decide) 2 3 (by decide) (by decide) (by decide) (by decide) 0⟩

/-- C6: the flux-divergence assembler feeds each interface
`i ∈ [ilo, ihi+1]` the reconstructed pair `(Q_left[i], Q_right[i])` to the
Riemann solver, returns `RHS[i] = (flux[i] − flux[i+1])/dx` for every
interior cell `i ∈ [ilo, ihi]`, and returns zero outside the interior. -/
theorem make_flux_divergence_formulas (riemann : Vec3 → Vec3 → ℚ → Vec3)
    (grid : FVGrid) (U : ℤ → Vec3) (i j : ℤ)
    (h1 : grid.ilo ≤ i) (h2 : i ≤ grid.ihi)
    (hj : j < grid.ilo ∨ grid.ihi < j) (n : Fin 3) :
    make_flux_divergence riemann grid U i n =
        (riemann (states_q_l grid U i) (states_q_r grid U i) gamma n -
          riemann (states_q_l grid U (i + 1)) (states_q_r grid U (i + 1)) gamma n) /
          grid.dx ∧
      make_flux_divergence riemann grid U j n = 0 := by
  constructor
  · simp only [make_flux_divergence, interface_flux, states]
    rw [if_pos ⟨h1, h2⟩, if_pos (by constructor <;> omega :
        grid.ilo ≤ i ∧ i ≤ grid.ihi + 1),
      if_pos (by constructor <;> omega :
        grid.ilo ≤ i + 1 ∧ i + 1 ≤ grid.ihi + 1)]
  · simp only [make_flux_divergence]
    rw [if_neg (by omega)]

theorem make_flux_divergence_formulas_witness :
    (mkGrid 4 2 0 1).ilo ≤ 3 ∧ (3 : ℤ) ≤ (mkGrid 4 2 0 1).ihi ∧
      ((1 : ℤ) < (mkGrid 4 2 0 1).ilo ∨ (mkGrid 4 2 0 1).ihi < 1) ∧
      (make_flux_divergence (fun ql _ _ => ql) (mkGrid 4 2 0 1)
          (fun k _ => (k : ℚ)) 3 0 =
        ((fun (ql : Vec3) (_ : Vec3) (_ : ℚ) => ql)
            (states_q_l (mkGrid 4 2 0 1) (fun k _ => (k : ℚ)) 3)
            (states_q_r (mkGrid 4 2 0 1) (fun k _ => (k : ℚ)) 3) gamma 0 -
          (fun (ql : Vec3) (_ : Vec3) (_ : ℚ) => ql)
            (states_q_l (mkGrid 4 2 0 1) (fun k _ => (k : ℚ)) (3 + 1))
            (states_q_r (mkGrid 4 2 0 1) (fun k _ => (k : ℚ)) (3 + 1)) gamma 0) /
          (mkGrid 4 2 0 1).dx ∧
      make_flux_divergence (fun ql _ _ => ql) (mkGrid 4 2 0 1)
          (fun k _ => (k : ℚ)) 1 0 = 0) :=
  ⟨by decide, by decide, by decide,
    make_flux_divergence_formulas (fun ql _ _ => ql) (mkGrid 4 2 0 1)
      (fun k _ => (k : ℚ)) 3 1 (by decide) (by decide) (by decide) 0⟩

/-- C9: for a spatially uniform conserved state, every slope on
`[ilo-1, ihi+1]` is zero and the reconstructed left and right states at
every interface `i ∈ [ilo, ihi+1]` equal the uniform state's primitive
values exactly. -/
theorem states_uniform_consistency (grid : FVGrid) (Ub : Vec3) (j i : ℤ)
    (hj1 : grid.ilo - 1 ≤ j) (hj2 : j ≤ grid.ihi + 1)
    (hi1 : grid.ilo ≤ i) (hi2 : i ≤ grid.ihi + 1) (n : Fin 3) :
    states_dq grid (fun _ => Ub) j n = 0 ∧
      states_q_l grid (fun _ => Ub) i n = prim_point Ub n ∧
      states_q_r grid (fun _ => Ub) i n = prim_point Ub n := by
  have hdq : ∀ k : ℤ, states_dq grid (fun _ => Ub) k n = 0 := by
    intro k
    simp only [states_dq, cons_to_prim]
    by_cases h : grid.ilo - 1 ≤ k ∧ k ≤ grid.ihi + 1
    · rw [if_pos h]; ring
    · rw [if_neg h]
  refine ⟨hdq j, ?_, ?_⟩
  · simp only [states_q_l]
    rw [if_pos ⟨hi1, hi2⟩, hdq (i - 1)]
    simp [cons_to_prim]
  · simp only [states_q_r]
    rw [if_pos ⟨hi1, hi2⟩, hdq i]
    simp [cons_to_prim]

theorem states_uniform_consistency_witness :
    (mkGrid 4 2 0 1).ilo - 1 ≤ 2 ∧ (2 : ℤ) ≤ (mkGrid 4 2 0 1).ihi + 1 ∧
      (mkGrid 4 2 0 1).ilo ≤ 3 ∧ (3 : ℤ) ≤ (mkGrid 4 2 0 1).ihi + 1 ∧
      (states_dq (mkGrid 4 2 0 1) (fun _ => ![1, 2, 3]) 2 0 = 0 ∧
        states_q_l (mkGrid 4 2 0 1) (fun _ => ![1, 2, 3]) 3 0 =
          prim_point ![1, 2, 3] 0 ∧
        states_q_r (mkGrid 4 2 0 1) (fun _ => ![1, 2, 3]) 3 0 =
          prim_point ![1, 2, 3] 0) :=
  ⟨by decide, by decide, by decide, by decide,
    states_uniform_consistency (mkGrid 4 2 0 1) ![1, 2, 3] 2 3
      (by decide) (by decide) (by decide) (by decide) 0⟩

lemma sum_sub_telescope_Icc (f : ℤ → ℚ) (a : ℤ) :
    ∀ b : ℤ, a - 1 ≤ b →
      ∑ i in Finset.Icc a b, (f i - f (i + 1)) = f a - f (b + 1) := by
  refine Int.le_induction ?_ ?_
  · rw [show Finset.Icc a (a - 1) = ∅ from Finset.Icc_eq_empty (by omega)]
    rw [Finset.sum_empty, show a - 1 + 1 = a by ring, sub_self]
  · intro b hb ih
    have hins : Finset.Icc a (b + 1) = insert (b + 1) (Finset.Icc a b) := by
      ext k
      simp only [Finset.mem_Icc, Finset.mem_insert]
      omega
    rw [hins, Finset.sum_insert (by simp only [Finset.mem_Icc]; omega), ih]
    ring

/-- C2: over one `mol_solve` step with zero-gradient boundary fill, the sum
over all interior cells `[ilo, ihi]` of each conserved component changes by
exactly the boundary flux imbalance `(flux[ilo] − flux[ihi+1])·dt/dx`, where
`flux` is the interface flux array of the stage-1 (`k2`) flux-divergence
evaluation used for the final update. -/
theorem mol_step_interior_conservation (riemann : Vec3 → Vec3 → ℚ → Vec3)
    (grid : FVGrid) (U : ℤ → Vec3) (dt : ℚ) (n : Fin 3)
    (h : grid.ilo ≤ grid.ihi + 1) :
    ∑ i in Finset.Icc grid.ilo grid.ihi, (mol_step riemann grid U dt i n - U i n)
      = (mol_k2_flux riemann grid U dt grid.ilo n -
          mol_k2_flux riemann grid U dt (grid.ihi + 1) n) * dt / grid.dx := by
  have hstep : ∀ i ∈ Finset.Icc grid.ilo grid.ihi,
      mol_step riemann grid U dt i n - U i n
        = dt / grid.dx * (mol_k2_flux riemann grid U dt i n -
            mol_k2_flux riemann grid U dt (i + 1) n) := by
    intro i hi
    rw [Finset.mem_Icc] at hi
    have hfill := fill_BCs_interior_eq grid U i hi.1 hi.2 n
    have hk2 : mol_k2 riemann grid U dt i n
        = (mol_k2_flux riemann grid U dt i n -
            mol_k2_flux riemann grid U dt (i + 1) n) / grid.dx :=
      make_flux_divergence_interior riemann grid
        (grid.fill_BCs (mol_U_mid riemann grid U dt)) i hi.1 hi.2 n
    simp only [mol_step]
    rw [hfill, hk2]
    ring
  have htel := sum_sub_telescope_Icc
    (fun k => mol_k2_flux riemann grid U dt k n) grid.ilo grid.ihi (by omega)
  beta_reduce at htel
  rw [Finset.sum_congr rfl hstep, ← Finset.mul_sum, htel]
  ring

theorem mol_step_interior_conservation_witness :
    (mkGrid 2 2 0 1).ilo ≤ (mkGrid 2 2 0 1).ihi + 1 ∧
      ∑ i in Finset.Icc (mkGrid 2 2 0 1).ilo (mkGrid 2 2 0 1).ihi,
          (mol_step (fun ql _ _ => ql) (mkGrid 2 2 0 1) (fun k _ => (k : ℚ)) 1 i 0 -
            (fun (k : ℤ) (_ : Fin 3) => (k : ℚ)) i 0)
        = (mol_k2_flux (fun ql _ _ => ql) (mkGrid 2 2 0 1) (fun k _ => (k : ℚ)) 1
              (mkGrid 2 2 0 1).ilo 0 -
            mol_k2_flux (fun ql _ _ => ql) (mkGrid 2 2 0 1) (fun k _ => (k : ℚ)) 1
              ((mkGrid 2 2 0 1).ihi + 1) 0) * 1 / (mkGrid 2 2 0 1).dx :=
  ⟨by decide,
    mol_step_interior_conservation (fun ql _ _ => ql) (mkGrid 2 2 0 1)
      (fun k _ => (k : ℚ)) 1 0 (by decide)⟩

lemma le_sliceMaxAux (f : ℤ → ℚ) (a : ℤ) :
    ∀ n : ℕ, ∀ k : ℕ, k ≤ n → f (a + k) ≤ sliceMaxAux f a n := by
  intro n
  induction n with
  | zero =>
    intro k hk
    have hk0 : k = 0 := Nat.le_zero.mp hk
    subst hk0
    simp [sliceMaxAux]
  | succ n ih =>
    intro k hk
    rcases Nat.lt_or_ge k (n + 1) with hlt | hge
    · exact le_trans (ih k (Nat.lt_succ_iff.mp hlt)) (le_max_left _ _)
    · have hk1 : k = n + 1 := le_antisymm hk hge
      subst hk1
      exact le_max_right _ _

lemma le_sliceMax (f : ℤ → ℚ) (a b i : ℤ) (h1 : a ≤ i) (h2 : i ≤ b) :
    f i ≤ sliceMax f a b := by
  have hk : i = a + ((i - a).toNat : ℤ) := by omega
  have hle : (i - a).toNat ≤ (b - a).toNat := by omega
  calc f i = f (a + ((i - a).toNat : ℤ)) := by rw [← hk]
    _ ≤ sliceMaxAux f a (b - a).toNat := le_sliceMaxAux f a _ _ hle
    _ = sliceMax f a b := rfl

lemma sliceMaxAux_attained (f : ℤ → ℚ) (a : ℤ) :
    ∀ n : ℕ, ∃ k : ℕ, k ≤ n ∧ sliceMaxAux f a n = f (a + k) := by
  intro n
  induction n with
  | zero => exact ⟨0, le_refl 0, by simp [sliceMaxAux]⟩
  | succ n ih =>
    obtain ⟨k, hk, hek⟩ := ih
    rcases le_total (sliceMaxAux f a n) (f (a + (n + 1 : ℕ))) with hle | hge
    · exact ⟨n + 1, le_refl _, max_eq_right hle⟩
    · exact ⟨k, Nat.le_succ_of_le hk, (max_eq_left hge).trans hek⟩

lemma sliceMax_attained (f : ℤ → ℚ) (a b : ℤ) (hab : a ≤ b) :
    ∃ i : ℤ, a ≤ i ∧ i ≤ b ∧ sliceMax f a b = f i := by
  obtain ⟨k, hk, hek⟩ := sliceMaxAux_attained f a (b - a).toNat
  exact ⟨a + k, by omega, by omega, hek⟩

lemma sliceMaxAux_congr (f g : ℤ → ℚ) (a : ℤ) :
    ∀ n : ℕ, (∀ k : ℕ, k ≤ n → f (a + k) = g (a + k)) →
      sliceMaxAux f a n = sliceMaxAux g a n := by
  intro n
  induction n with
  | zero =>
    intro h
    have h0 := h 0 (le_refl 0)
    simpa [sliceMaxAux] using h0
  | succ n ih =>
    intro h
    have h1 := h (n + 1) (le_refl _)
    push_cast at h1
    simp only [sliceMaxAux]
    rw [ih (fun k hk => h k (Nat.le_succ_of_le hk)), h1]

lemma sliceMax_congr (f g : ℤ → ℚ) (a b : ℤ) (hab : a ≤ b)
    (h : ∀ i : ℤ, a ≤ i → i ≤ b → f i = g i) :
    sliceMax f a b = sliceMax g a b := by
  refine sliceMaxAux_congr f g a _ ?_
  intro k hk
  exact h (a + k) (by omega) (by omega)

/-- C7: `timestep` returns `dt = C·dx / s_max`, where `s_max` is the
maximum over the interior cells `[ilo, ihi]` of `|u[i]| + c[i]` with sound
speed `c[i] = sqrt(γ·p[i]/ρ[i])` and `(ρ, u, p)` the primitive conversion
of `U` (the existential pins `s_max` down as that maximum: it is attained
at an interior cell and bounds every interior cell's signal speed). -/
theorem timestep_eq_cfl_formula (sqrt : ℚ → ℚ) (grid : FVGrid) (U : ℤ → Vec3)
    (h : grid.ilo ≤ grid.ihi) :
    ∃ s_max : ℚ,
      timestep sqrt grid U = C * grid.dx / s_max ∧
      (∃ i : ℤ, grid.ilo ≤ i ∧ i ≤ grid.ihi ∧
        s_max = |cons_to_prim grid U i QU| +
          sqrt (gamma * cons_to_prim grid U i QP / cons_to_prim grid U i QRHO)) ∧
      ∀ i : ℤ, grid.ilo ≤ i → i ≤ grid.ihi →
        |cons_to_prim grid U i QU| +
          sqrt (gamma * cons_to_prim grid U i QP / cons_to_prim grid U i QRHO)
          ≤ s_max := by
  have hcongr : sliceMax (fun i => |cons_to_prim grid U i QU| +
        (if grid.ilo ≤ i ∧ i ≤ grid.ihi then
          sqrt (gamma * cons_to_prim grid U i QP / cons_to_prim grid U i QRHO)
        else 0)) grid.ilo grid.ihi
      = sliceMax (fun i => |cons_to_prim grid U i QU| +
          sqrt (gamma * cons_to_prim grid U i QP / cons_to_prim grid U i QRHO))
          grid.ilo grid.ihi := by
    refine sliceMax_congr _ _ _ _ h ?_
    intro i h1 h2
    rw [if_pos ⟨h1, h2⟩]
  refine ⟨sliceMax (fun i => |cons_to_prim grid U i QU| +
      sqrt (gamma * cons_to_prim grid U i QP / cons_to_prim grid U i QRHO))
      grid.ilo grid.ihi, ?_, ?_, ?_⟩
  · simp only [timestep]
    rw [hcongr]
  · obtain ⟨i0, h1, h2, he⟩ := sliceMax_attained
      (fun i => |cons_to_prim grid U i QU| +
        sqrt (gamma * cons_to_prim grid U i QP / cons_to_prim grid U i QRHO))
      grid.ilo grid.ihi h
    exact ⟨i0, h1, h2, he⟩
  · intro i h1 h2
    exact le_sliceMax _ grid.ilo grid.ihi i h1 h2

theorem timestep_eq_cfl_formula_witness :
    (mkGrid 4 2 0 1).ilo ≤ (mkGrid 4 2 0 1).ihi ∧
      ∃ s_max : ℚ,
        timestep (fun x => x) (mkGrid 4 2 0 1) (fun _ => ![1, 0, 1]) =
            C * (mkGrid 4 2 0 1).dx / s_max ∧
        (∃ i : ℤ, (mkGrid 4 2 0 1).ilo ≤ i ∧ i ≤ (mkGrid 4 2 0 1).ihi ∧
          s_max = |cons_to_prim (mkGrid 4 2 0 1) (fun _ => ![1, 0, 1]) i QU| +
            (gamma * cons_to_prim (mkGrid 4 2 0 1) (fun _ => ![1, 0, 1]) i QP /
              cons_to_prim (mkGrid 4 2 0 1) (fun _ => ![1, 0, 1]) i QRHO)) ∧
        ∀ i : ℤ, (mkGrid 4 2 0 1).ilo ≤ i → i ≤ (mkGrid 4 2 0 1).ihi →
          |cons_to_prim (mkGrid 4 2 0 1) (fun _ => ![1, 0, 1]) i QU| +
            (gamma * cons_to_prim (mkGrid 4 2 0 1) (fun _ => ![1, 0, 1]) i QP /
              cons_to_prim (mkGrid 4 2 0 1) (fun _ => ![1, 0, 1]) i QRHO)
            ≤ s_max :=
  ⟨by decide,
    timestep_eq_cfl_formula (fun x => x) (mkGrid 4 2 0 1) (fun _ => ![1, 0, 1])
      (by decide)⟩

/-- C8: `timestep` is strictly positive for every state whose primitive
density and pressure are positive at some interior cell (for a grid with
positive cell spacing, and granting that the external `np.sqrt` sends
positive arguments to positive results). -/
theorem timestep_pos (sqrt : ℚ → ℚ) (grid : FVGrid) (U : ℤ → Vec3)
    (hdx : 0 < grid.dx) (hsqrt : ∀ x : ℚ, 0 < x → 0 < sqrt x)
    (hex : ∃ i : ℤ, (grid.ilo ≤ i ∧ i ≤ grid.ihi) ∧
      0 < cons_to_prim grid U i QRHO ∧ 0 < cons_to_prim grid U i QP) :
    0 < timestep sqrt grid U := by
  obtain ⟨i0, ⟨hi1, hi2⟩, hrho, hp⟩ := hex
  have key : 0 < |cons_to_prim grid U i0 QU| +
      (if grid.ilo ≤ i0 ∧ i0 ≤ grid.ihi then
        sqrt (gamma * cons_to_prim grid U i0 QP / cons_to_prim grid U i0 QRHO)
      else 0) := by
    rw [if_pos ⟨hi1, hi2⟩]
    have harg : 0 < gamma * cons_to_prim grid U i0 QP / cons_to_prim grid U i0 QRHO :=
      div_pos (mul_pos (by norm_num [gamma]) hp) hrho
    exact add_pos_of_nonneg_of_pos (abs_nonneg _) (hsqrt _ harg)
  have hmax : 0 < sliceMax (fun i => |cons_to_prim grid U i QU| +
      (if grid.ilo ≤ i ∧ i ≤ grid.ihi then
        sqrt (gamma * cons_to_prim grid U i QP / cons_to_prim grid U i QRHO)
      else 0)) grid.ilo grid.ihi :=
    lt_of_lt_of_le key (le_sliceMax _ grid.ilo grid.ihi i0 hi1 hi2)
  simp only [timestep]
  exact div_pos (mul_pos (by norm_num [C]) hdx) hmax

theorem timestep_pos_witness :
    0 < (mkGrid 4 2 0 1).dx ∧
      (∃ i : ℤ, ((mkGrid 4 2 0 1).ilo ≤ i ∧ i ≤ (mkGrid 4 2 0 1).ihi) ∧
        0 < cons_to_prim (mkGrid 4 2 0 1) (fun _ => ![1, 0, 1]) i QRHO ∧
        0 < cons_to_prim (mkGrid 4 2 0 1) (fun _ => ![1, 0, 1]) i QP) ∧
      0 < timestep (fun x => x) (mkGrid 4 2 0 1) (fun _ => ![1, 0, 1]) :=
  ⟨by norm_num [mkGrid],
    ⟨2, ⟨by decide, by decide⟩,
      by norm_num [cons_to_prim, prim_point, QRHO, URHO, UMX, UENER, gamma],
      by norm_num [cons_to_prim, prim_point, QP, URHO, UMX, UENER, gamma]⟩,
    timestep_pos (fun x => x) (mkGrid 4 2 0 1) (fun _ => ![1, 0, 1])
      (by norm_num [mkGrid]) (fun x hx => hx)
      ⟨2, ⟨by decide, by decide⟩,
        by norm_num [cons_to_prim, prim_point, QRHO, URHO, UMX, UENER, gamma],
        by norm_num [cons_to_prim, prim_point, QP, URHO, UMX, UENER, gamma]⟩⟩
